import Mathlib

/-!
Verification of the prow `/skip` plugin (`prow/plugins/skip/skip.go`).

The development shallowly embeds the plugin's data model and control flow:

* the per-check status helpers `statusExists` and `isSuccess` and the
  `triggerWillHandle` closure are translated directly from the source;
* the decision part of the `handle` loop is captured by `skipActionsOf` /
  `computeSkipActions`, and the effectful part (status writes, error
  comments) by `skipLoop` and `handle`, which thread an explicit
  environment of collaborator results and return the list of issued
  calls together with the function's error result;
* the command regexp `(?mi)^/skip\s*$` is embedded by `scanSkip`, a
  scanner over the character list that tries the pattern at every
  start-of-line position.  Go's `regexp` implements the `i` flag by
  Unicode simple case folding, so each literal letter matches its whole
  fold orbit: `s` also matches `ſ` (U+017F) and `k` also matches the
  Kelvin sign (U+212A); RE2 `\s` is space, tab, newline, form feed and
  carriage return, and with the multiline flag `^` holds at the start of
  the text and after every newline while `$` holds at the end of the
  text and before a newline.

Types owned by collaborating packages (`config.Presubmit`,
`github.Status`, combined status, the generic comment event) are given
the fields this plugin reads.
-/

/-- State of a commit status (`github.StatusSuccess` etc. in the source). -/
inductive StatusState where
  | success
  | pending
  | failure
  | error
deriving DecidableEq

/-- A commit status (`github.Status`): the fields the plugin reads or writes. -/
structure Status where
  state : StatusState
  description : String
  context : String
deriving DecidableEq

/-- A configured presubmit check (`config.Presubmit`): the fields the plugin
reads.  Modelled from the spec: the spec's CheckDefinition carries `name`,
`context` and a boolean `required`; the source's `config.Presubmit` (outside
this repository snapshot) exposes it through `ContextRequired()`. -/
structure Presubmit where
  name : String
  context : String
  required : Bool
deriving DecidableEq

/-- Modelled from the spec: `config.Presubmit.ContextRequired()` reports
whether the check blocks merge (the spec's `required` flag). -/
def Presubmit.ContextRequired (p : Presubmit) : Bool :=
  p.required

/-- Combined status for a head commit (`github.CombinedStatus`). -/
structure CombinedStatus where
  state : StatusState
  statuses : List Status
deriving DecidableEq

/-- Pull request data the handler reads (`github.PullRequest`). -/
structure PullRequest where
  baseRef : String
  headSHA : String
deriving DecidableEq

/-- Action of a generic comment event (`github.GenericCommentAction...`). -/
inductive GenericCommentEventAction where
  | created
  | edited
  | deleted
deriving DecidableEq

/-- The fields of `github.GenericCommentEvent` read by `handle`. -/
structure GenericCommentEvent where
  isPR : Bool
  issueState : String
  action : GenericCommentEventAction
  body : String
  htmlURL : String
  userLogin : String
  repoOwnerLogin : String
  repoName : String
  number : Int
deriving DecidableEq

/-- Translation of `statusExists(job, statuses)`: linear scan for a status
entry whose context equals the job's context. -/
def statusExists (job : Presubmit) : List Status → Bool
  | [] => false
  | status :: rest =>
    if status.context = job.context then true else statusExists job rest

/-- Translation of `isSuccess(job, statuses)`: linear scan for a status entry
with the job's context whose state is success. -/
def isSuccess (job : Presubmit) : List Status → Bool
  | [] => false
  | status :: rest =>
    if status.context = job.context ∧ status.state = StatusState.success then true
    else isSuccess job rest

/-- Translation of the `triggerWillHandle` closure in `handle`: the job is
handled by the trigger plugin when some filtered presubmit has the same name
and context. -/
def triggerWillHandle : List Presubmit → Presubmit → Bool
  | [], _ => false
  | presubmit :: rest, p =>
    if p.name = presubmit.name ∧ p.context = presubmit.context then true
    else triggerWillHandle rest p

/-- The status written for a skipped job (`github.Status{State: StatusSuccess,
Description: "Skipped", Context: context}` in the loop body of `handle`). -/
def skipStatusFor (job : Presubmit) : Status :=
  { state := StatusState.success, description := "Skipped", context := job.context }

/-- The pure decision content of the loop in `handle`: the ordered list of
skip statuses the loop writes, for a given status list and filtered
presubmits.  Mirrors the loop's `continue` conditions exactly. -/
def skipActionsOf (statuses : List Status) (filteredPresubmits : List Presubmit) :
    List Presubmit → List Status
  | [] => []
  | job :: rest =>
    if !statusExists job statuses || isSuccess job statuses then
      skipActionsOf statuses filteredPresubmits rest
    else if triggerWillHandle filteredPresubmits job then
      skipActionsOf statuses filteredPresubmits rest
    else if job.ContextRequired then
      skipActionsOf statuses filteredPresubmits rest
    else
      skipStatusFor job :: skipActionsOf statuses filteredPresubmits rest

/-- The engine contract of the spec (`computeSkipActions`): short-circuit on
an overall success state, otherwise run the decision loop. -/
def computeSkipActions (presubmits : List Presubmit) (combinedStatus : CombinedStatus)
    (filteredPresubmits : List Presubmit) : List Status :=
  if combinedStatus.state = StatusState.success then []
  else skipActionsOf combinedStatus.statuses filteredPresubmits presubmits

/-- RE2 character class `\s` (as used by `skipRe`): space, tab, newline,
form feed, carriage return. -/
def isGoSpace (c : Char) : Bool :=
  c = ' ' || c = '\t' || c = '\n' || c = '\x0c' || c = '\r'

/-- Consume the literal `/skip` of `skipRe` (case-insensitively) from the
front of a character list, returning the remainder, or `none` when the list
does not start with it.  Go regexp's `i` flag applies Unicode simple case
folding, so each letter matches its whole fold orbit: `s` matches `s`, `S`
and `ſ` (U+017F), `k` matches `k`, `K` and the Kelvin sign (U+212A), while
the orbits of `i` and `p` are the ASCII pair only. -/
def stripSkipCmd : List Char → Option (List Char)
  | c0 :: c1 :: c2 :: c3 :: c4 :: rest =>
    if c0 = '/' ∧ (c1 = 's' ∨ c1 = 'S' ∨ c1 = '\u017F')
        ∧ (c2 = 'k' ∨ c2 = 'K' ∨ c2 = '\u212A')
        ∧ (c3 = 'i' ∨ c3 = 'I') ∧ (c4 = 'p' ∨ c4 = 'P') then
      some rest
    else none
  | _ => none

/-- After the literal, `skipRe` requires `\s*$`: with RE2's multiline flag,
`$` holds at the end of the text and before a newline, so the run of
whitespace other than newline after the literal must be followed by a
newline or by the end of the text. -/
def tailMatchesSkip (l : List Char) : Bool :=
  match l.dropWhile (fun c => isGoSpace c && c != '\n') with
  | [] => true
  | c :: _ => c = '\n'

/-- Whether `skipRe` matches at the current position (assumed to be a
start-of-line position). -/
def matchesSkipHere (l : List Char) : Bool :=
  match stripSkipCmd l with
  | some rest => tailMatchesSkip rest
  | none => false

/-- Scanner for `skipRe.MatchString`: try the pattern at every start-of-line
position (`^` with the multiline flag holds at the start of the text and
after every newline). -/
def scanSkip : Bool → List Char → Bool
  | atLineStart, [] => atLineStart && matchesSkipHere []
  | atLineStart, c :: rest =>
    (atLineStart && matchesSkipHere (c :: rest)) || scanSkip (c == '\n') rest

/-- Embedding of `skipRe.MatchString(body)` for
`skipRe = regexp.MustCompile("(?mi)^/skip\s*$")`. -/
def skipReMatch (body : String) : Bool :=
  scanSkip true body.data

/-- A single line of a body: the characters up to the first newline. -/
def firstLine (l : List Char) : List Char :=
  l.takeWhile (fun c => c != '\n')

/-- Split a character list into its lines (as `strings.Split` on newline
would). -/
def splitLines : List Char → List (List Char)
  | [] => [[]]
  | c :: rest =>
    if c = '\n' then [] :: splitLines rest
    else (c :: (splitLines rest).headI) :: (splitLines rest).tail

/-- Whether a single newline-free line consists of the `/skip` command with
at most trailing whitespace. -/
def lineMatchesSkip (l : List Char) : Bool :=
  match stripSkipCmd l with
  | some rest => rest.all isGoSpace
  | none => false

/-- Modelled from the spec: `plugins.FormatResponseRaw` (outside this
repository snapshot) renders a plain-text reply quoting the triggering
comment's permalink and author mention. -/
def FormatResponseRaw (body htmlURL login reply : String) : String :=
  "@" ++ login ++ ": " ++ reply ++ "\n\nIn response to [this](" ++ htmlURL ++ "):\n" ++ body

/-- The response text for a pull-request fetch failure
(`"Cannot get PR #%d in %s/%s: %v"`). -/
def prFetchErrorResp (number : Int) (org repo err : String) : String :=
  "Cannot get PR #" ++ toString number ++ " in " ++ org ++ "/" ++ repo ++ ": " ++ err

/-- The response text for a combined-status fetch failure
(`"Cannot get combined commit statuses for PR #%d in %s/%s: %v"`). -/
def combinedStatusErrorResp (number : Int) (org repo err : String) : String :=
  "Cannot get combined commit statuses for PR #" ++ toString number ++ " in "
    ++ org ++ "/" ++ repo ++ ": " ++ err

/-- The response text for a trigger-overlap (presubmit filtering) failure
(`"Cannot get combined status for PR #%d in %s/%s: %v"`). -/
def filterErrorResp (number : Int) (org repo err : String) : String :=
  "Cannot get combined status for PR #" ++ toString number ++ " in "
    ++ org ++ "/" ++ repo ++ ": " ++ err

/-- The response text for a status-write failure
(`"Cannot update PR status for context %s: %v"`). -/
def statusWriteErrorResp (context err : String) : String :=
  "Cannot update PR status for context " ++ context ++ ": " ++ err

/-- A call issued by the handler to a collaborator, in order of issue. -/
inductive SideEffect where
  | fetchPullRequest
  | fetchPresubmits
  | fetchCombinedStatus
  | fetchFilteredPresubmits
  | createStatus (status : Status)
  | createComment (comment : String)
deriving DecidableEq

/-- The results the collaborating GitHub client returns during one
invocation (the `githubClient` interface of the source). -/
structure GithubClient where
  getPullRequest : Except String PullRequest
  getCombinedStatus : Except String CombinedStatus
  createStatus : Status → Except String Unit
  createComment : String → Except String Unit

/-- The full collaborator environment of one `handle` invocation:
the GitHub client, `config.GetPresubmits` (the base-SHA getter's failure is
absorbed into its error) and `trigger.FilterPresubmits`. -/
structure HandleEnv where
  gc : GithubClient
  getPresubmits : Except String (List Presubmit)
  filterPresubmits : Except String (List Presubmit)

/-- The status-writing loop of `handle`: iterate the presubmits in order,
skip the ones filtered out by the `continue` conditions, write a skip status
for each remaining one, and on the first write failure post an error comment
and return its result. -/
def skipLoop (env : HandleEnv) (e : GenericCommentEvent) (statuses : List Status)
    (filteredPresubmits : List Presubmit) :
    List Presubmit → List SideEffect × Except String Unit
  | [] => ([], Except.ok ())
  | job :: rest =>
    if !statusExists job statuses || isSuccess job statuses then
      skipLoop env e statuses filteredPresubmits rest
    else if triggerWillHandle filteredPresubmits job then
      skipLoop env e statuses filteredPresubmits rest
    else if job.ContextRequired then
      skipLoop env e statuses filteredPresubmits rest
    else
      match env.gc.createStatus (skipStatusFor job) with
      | Except.ok _ =>
        let r := skipLoop env e statuses filteredPresubmits rest
        (SideEffect.createStatus (skipStatusFor job) :: r.1, r.2)
      | Except.error err =>
        let comment := FormatResponseRaw e.body e.htmlURL e.userLogin
          (statusWriteErrorResp job.context err)
        ([SideEffect.createStatus (skipStatusFor job), SideEffect.createComment comment],
          env.gc.createComment comment)

/-- Translation of `handle`: the command gate, the collaborator fetches with
their error reporting, the overall-success short circuit, and the
status-writing loop.  Returns the calls issued and the error result. -/
def handle (env : HandleEnv) (e : GenericCommentEvent) (honorOkToTest : Bool) :
    List SideEffect × Except String Unit :=
  if !e.isPR ∨ e.issueState ≠ "open" ∨ e.action ≠ GenericCommentEventAction.created then
    ([], Except.ok ())
  else if !skipReMatch e.body then
    ([], Except.ok ())
  else
    let org := e.repoOwnerLogin
    let repo := e.repoName
    let number := e.number
    match env.gc.getPullRequest with
    | Except.error err =>
      let comment := FormatResponseRaw e.body e.htmlURL e.userLogin
        (prFetchErrorResp number org repo err)
      ([SideEffect.fetchPullRequest, SideEffect.createComment comment],
        env.gc.createComment comment)
    | Except.ok _pr =>
      match env.getPresubmits with
      | Except.error err =>
        ([SideEffect.fetchPullRequest, SideEffect.fetchPresubmits],
          Except.error ("failed to get presubmits: " ++ err))
      | Except.ok presubmits =>
        match env.gc.getCombinedStatus with
        | Except.error err =>
          let comment := FormatResponseRaw e.body e.htmlURL e.userLogin
            (combinedStatusErrorResp number org repo err)
          ([SideEffect.fetchPullRequest, SideEffect.fetchPresubmits,
              SideEffect.fetchCombinedStatus, SideEffect.createComment comment],
            env.gc.createComment comment)
        | Except.ok combinedStatus =>
          if combinedStatus.state = StatusState.success then
            ([SideEffect.fetchPullRequest, SideEffect.fetchPresubmits,
                SideEffect.fetchCombinedStatus], Except.ok ())
          else
            match env.filterPresubmits with
            | Except.error err =>
              let comment := FormatResponseRaw e.body e.htmlURL e.userLogin
                (filterErrorResp number org repo err)
              ([SideEffect.fetchPullRequest, SideEffect.fetchPresubmits,
                  SideEffect.fetchCombinedStatus, SideEffect.fetchFilteredPresubmits,
                  SideEffect.createComment comment],
                env.gc.createComment comment)
            | Except.ok filteredPresubmits =>
              let r := skipLoop env e combinedStatus.statuses filteredPresubmits presubmits
              ([SideEffect.fetchPullRequest, SideEffect.fetchPresubmits,
                  SideEffect.fetchCombinedStatus, SideEffect.fetchFilteredPresubmits] ++ r.1,
                r.2)

def jobUnit : Presubmit :=
  { name := "unit", context := "ci/unit", required := true }

def jobLint : Presubmit :=
  { name := "lint", context := "ci/lint", required := false }

def jobFlaky : Presubmit :=
  { name := "flaky", context := "ci/flaky", required := false }

def csAB : CombinedStatus :=
  { state := StatusState.failure,
    statuses :=
      [ { state := StatusState.failure, description := "Build failed", context := "ci/unit" },
        { state := StatusState.failure, description := "Lint failed", context := "ci/lint" } ] }

def dupStatuses : List Status :=
  [ { state := StatusState.success, description := "Job succeeded", context := "ci/flaky" },
    { state := StatusState.failure, description := "Job failed", context := "ci/flaky" } ]

instance {ε α : Type} [DecidableEq ε] [DecidableEq α] : DecidableEq (Except ε α)
  | Except.ok a, Except.ok b =>
    if h : a = b then isTrue (by rw [h]) else isFalse (fun hh => h (by injection hh))
  | Except.ok _, Except.error _ => isFalse (fun hh => Except.noConfusion hh)
  | Except.error _, Except.ok _ => isFalse (fun hh => Except.noConfusion hh)
  | Except.error e1, Except.error e2 =>
    if h : e1 = e2 then isTrue (by rw [h]) else isFalse (fun hh => h (by injection hh))

def envNoop : HandleEnv :=
  { gc :=
      { getPullRequest := Except.error "unreachable"
      , getCombinedStatus := Except.error "unreachable"
      , createStatus := fun _ => Except.ok ()
      , createComment := fun _ => Except.ok () }
  , getPresubmits := Except.error "unreachable"
  , filterPresubmits := Except.error "unreachable" }

def eventClosedPR : GenericCommentEvent :=
  { isPR := true, issueState := "closed", action := GenericCommentEventAction.created,
    body := "/skip", htmlURL := "https://example.com/pr/1#c1", userLogin := "alice",
    repoOwnerLogin := "org", repoName := "repo", number := 1 }

def eventOpenPR : GenericCommentEvent :=
  { isPR := true, issueState := "open", action := GenericCommentEventAction.created,
    body := "/skip", htmlURL := "https://example.com/pr/2#c2", userLogin := "bob",
    repoOwnerLogin := "org", repoName := "repo", number := 2 }

def envPrFetchFails : HandleEnv :=
  { gc :=
      { getPullRequest := Except.error "boom"
      , getCombinedStatus := Except.error "boom"
      , createStatus := fun _ => Except.ok ()
      , createComment := fun _ => Except.ok () }
  , getPresubmits := Except.error "boom"
  , filterPresubmits := Except.error "boom" }

def jobA : Presubmit := { name := "a", context := "ci/a", required := false }

def jobB : Presubmit := { name := "b", context := "ci/b", required := false }

def jobC : Presubmit := { name := "c", context := "ci/c", required := false }

def csC6 : CombinedStatus :=
  { state := StatusState.failure,
    statuses :=
      [ { state := StatusState.failure, description := "", context := "ci/a" },
        { state := StatusState.failure, description := "", context := "ci/b" },
        { state := StatusState.failure, description := "", context := "ci/c" } ] }

def envC6 : HandleEnv :=
  { gc :=
      { getPullRequest := Except.ok { baseRef := "master", headSHA := "abc123" }
      , getCombinedStatus := Except.ok csC6
      , createStatus := fun s => if s.context = "ci/b" then Except.error "boom"
          else Except.ok ()
      , createComment := fun _ => Except.ok () }
  , getPresubmits := Except.ok [jobA, jobB, jobC]
  , filterPresubmits := Except.ok [] }

theorem statusExists_iff (job : Presubmit) (sts : List Status) :
    statusExists job sts = true ↔ ∃ s ∈ sts, s.context = job.context := by
  induction sts with
  | nil => simp [statusExists]
  | cons s rest ih =>
    by_cases h : s.context = job.context
    · simp [statusExists, h]
    · simp [statusExists, h, ih]

theorem isSuccess_iff (job : Presubmit) (sts : List Status) :
    isSuccess job sts = true ↔
      ∃ s ∈ sts, s.context = job.context ∧ s.state = StatusState.success := by
  induction sts with
  | nil => simp [isSuccess]
  | cons s rest ih =>
    by_cases h : s.context = job.context ∧ s.state = StatusState.success
    · simp [isSuccess, h]
    · simp only [isSuccess, if_neg h, ih, List.mem_cons]
      constructor
      · rintro ⟨t, ht, hc⟩
        exact ⟨t, Or.inr ht, hc⟩
      · rintro ⟨t, ht | ht, hc⟩
        · exact absurd (ht ▸ hc) h
        · exact ⟨t, ht, hc⟩

theorem triggerWillHandle_iff (filtered : List Presubmit) (p : Presubmit) :
    triggerWillHandle filtered p = true ↔
      ∃ q ∈ filtered, p.name = q.name ∧ p.context = q.context := by
  induction filtered with
  | nil => simp [triggerWillHandle]
  | cons q rest ih =>
    by_cases h : p.name = q.name ∧ p.context = q.context
    · simp [triggerWillHandle, h]
    · simp only [triggerWillHandle, if_neg h, ih, List.mem_cons]
      constructor
      · rintro ⟨t, ht, hc⟩
        exact ⟨t, Or.inr ht, hc⟩
      · rintro ⟨t, ht | ht, hc⟩
        · exact absurd (ht ▸ hc) h
        · exact ⟨t, ht, hc⟩

theorem skipActionsOf_eq_filter_map (statuses : List Status)
    (filtered : List Presubmit) (l : List Presubmit) :
    skipActionsOf statuses filtered l =
      (l.filter (fun job => statusExists job statuses && !isSuccess job statuses
        && !triggerWillHandle filtered job && !job.ContextRequired)).map skipStatusFor := by
  induction l with
  | nil => rfl
  | cons job rest ih =>
    by_cases h1 : statusExists job statuses = true
    · by_cases h2 : isSuccess job statuses = true
      · simp [skipActionsOf, List.filter_cons, h1, h2, ih]
      · by_cases h3 : triggerWillHandle filtered job = true
        · simp [skipActionsOf, List.filter_cons, h1, h2, h3, ih]
        · by_cases h4 : job.ContextRequired = true
          · simp [skipActionsOf, List.filter_cons, h1, h2, h3, h4, ih]
          · simp [skipActionsOf, List.filter_cons, h1, h2, h3, h4, ih]
    · simp [skipActionsOf, List.filter_cons, h1, ih]

theorem computeSkipActions_drop (l1 l2 : List Presubmit) (job : Presubmit)
    (cs : CombinedStatus) (filtered : List Presubmit)
    (h : (statusExists job cs.statuses && !isSuccess job cs.statuses
      && !triggerWillHandle filtered job && !job.ContextRequired) = false) :
    computeSkipActions (l1 ++ job :: l2) cs filtered
      = computeSkipActions (l1 ++ l2) cs filtered := by
  by_cases hs : cs.state = StatusState.success
  · simp [computeSkipActions, hs]
  · simp only [computeSkipActions, if_neg hs]
    rw [skipActionsOf_eq_filter_map, skipActionsOf_eq_filter_map]
    simp [List.filter_append, List.filter_cons, h]

/-- C1: for every ordered sequence of configured checks, every combined
status whose overall state is not success, and every overlap set, the
engine's output is exactly the configuration-ordered list of checks that
have a status entry for their context, are not reported as success, are not
handled by the overlapping trigger directive, and are not required — each
mapped to a status with that check's context, target state success and
description "Skipped", and nothing else. -/
theorem skip_C1 (presubmits : List Presubmit) (cs : CombinedStatus)
    (filtered : List Presubmit) (h : cs.state ≠ StatusState.success) :
    computeSkipActions presubmits cs filtered =
      (presubmits.filter (fun job => statusExists job cs.statuses
        && !isSuccess job cs.statuses && !triggerWillHandle filtered job
        && !job.ContextRequired)).map
        (fun job =>
          { state := StatusState.success, description := "Skipped", context := job.context }) := by
  simp only [computeSkipActions, if_neg h]
  rw [skipActionsOf_eq_filter_map]
  rfl

theorem skip_C1_witness :
    csAB.state ≠ StatusState.success ∧
      computeSkipActions [jobUnit, jobLint] csAB [] =
        ([jobUnit, jobLint].filter (fun job => statusExists job csAB.statuses
          && !isSuccess job csAB.statuses && !triggerWillHandle [] job
          && !job.ContextRequired)).map
          (fun job =>
            { state := StatusState.success, description := "Skipped", context := job.context }) :=
  ⟨by decide, skip_C1 [jobUnit, jobLint] csAB [] (by decide)⟩

/-- C2: a required check never produces a skip action: dropping it from the
configured checks leaves the engine's output unchanged, for every combined
status and overlap set. -/
theorem skip_C2 (l1 l2 : List Presubmit) (job : Presubmit) (cs : CombinedStatus)
    (filtered : List Presubmit) (h : job.ContextRequired = true) :
    computeSkipActions (l1 ++ job :: l2) cs filtered
      = computeSkipActions (l1 ++ l2) cs filtered :=
  computeSkipActions_drop l1 l2 job cs filtered (by simp [h])

theorem skip_C2_witness :
    jobUnit.ContextRequired = true ∧
      computeSkipActions [jobUnit, jobLint] csAB []
        = computeSkipActions [jobLint] csAB [] :=
  ⟨by decide, skip_C2 [] [jobLint] jobUnit csAB [] (by decide)⟩

/-- C3: a check whose (name, context) pair is a member of the overlap set
never produces a skip action, even when non-required and failing: dropping
it from the configured checks leaves the engine's output unchanged. -/
theorem skip_C3 (l1 l2 : List Presubmit) (job : Presubmit) (cs : CombinedStatus)
    (filtered : List Presubmit)
    (h : ∃ q ∈ filtered, job.name = q.name ∧ job.context = q.context) :
    computeSkipActions (l1 ++ job :: l2) cs filtered
      = computeSkipActions (l1 ++ l2) cs filtered :=
  computeSkipActions_drop l1 l2 job cs filtered
    (by simp [(triggerWillHandle_iff filtered job).mpr h])

theorem skip_C3_witness :
    (∃ q ∈ [jobLint], jobLint.name = q.name ∧ jobLint.context = q.context) ∧
      computeSkipActions [jobUnit, jobLint] csAB [jobLint]
        = computeSkipActions [jobUnit] csAB [jobLint] :=
  ⟨by decide, skip_C3 [jobUnit] [] jobLint csAB [jobLint] (by decide)⟩

/-- C4: for every combined status whose overall state is success the engine
returns the empty sequence, regardless of the configured checks, the
individual status entries and the overlap set. -/
theorem skip_C4 (presubmits : List Presubmit) (statuses : List Status)
    (filtered : List Presubmit) :
    computeSkipActions presubmits
      { state := StatusState.success, statuses := statuses } filtered = [] := by
  simp [computeSkipActions]

/-- C5: a check whose context has no status entry at all in the combined
status never produces a skip action, even when non-required and absent from
the overlap set: dropping it from the configured checks leaves the engine's
output unchanged. -/
theorem skip_C5 (l1 l2 : List Presubmit) (job : Presubmit) (cs : CombinedStatus)
    (filtered : List Presubmit)
    (h : ∀ s ∈ cs.statuses, s.context ≠ job.context) :
    computeSkipActions (l1 ++ job :: l2) cs filtered
      = computeSkipActions (l1 ++ l2) cs filtered := by
  apply computeSkipActions_drop
  have hex : statusExists job cs.statuses = false := by
    rw [Bool.eq_false_iff]
    intro hx
    obtain ⟨s, hs, hc⟩ := (statusExists_iff job cs.statuses).mp hx
    exact h s hs hc
  simp [hex]

theorem skip_C5_witness :
    (∀ s ∈ csAB.statuses, s.context ≠ jobFlaky.context) ∧
      computeSkipActions [jobFlaky, jobLint] csAB []
        = computeSkipActions [jobLint] csAB [] :=
  ⟨by decide, skip_C5 [] [jobLint] jobFlaky csAB [] (by decide)⟩

/-- C9: the per-check success test is any-match over the status list, not
latest-report-wins: when the status list holds several entries for the same
context and any one of them is success, a check with that context produces
no skip action, even when another entry for that context reports failure. -/
theorem skip_C9 (l1 l2 : List Presubmit) (job : Presubmit) (st : StatusState)
    (statuses : List Status) (filtered : List Presubmit) (s1 s2 : Status)
    (h1 : s1 ∈ statuses) (h1c : s1.context = job.context)
    (h1s : s1.state = StatusState.success)
    (h2 : s2 ∈ statuses) (h2c : s2.context = job.context)
    (h2s : s2.state = StatusState.failure) :
    computeSkipActions (l1 ++ job :: l2) { state := st, statuses := statuses } filtered
      = computeSkipActions (l1 ++ l2) { state := st, statuses := statuses } filtered := by
  apply computeSkipActions_drop
  have hsucc : isSuccess job statuses = true :=
    (isSuccess_iff job statuses).mpr ⟨s1, h1, h1c, h1s⟩
  simp [hsucc]

theorem skip_C9_witness :
    computeSkipActions [jobFlaky] { state := StatusState.failure, statuses := dupStatuses } []
      = computeSkipActions [] { state := StatusState.failure, statuses := dupStatuses } [] :=
  skip_C9 [] [] jobFlaky StatusState.failure dupStatuses []
    { state := StatusState.success, description := "Job succeeded", context := "ci/flaky" }
    { state := StatusState.failure, description := "Job failed", context := "ci/flaky" }
    (by decide) (by decide) (by decide) (by decide) (by decide) (by decide)

theorem stripSkipCmd_eq_none (l : List Char) (h : l.length < 5) :
    stripSkipCmd l = none := by
  rcases l with _ | ⟨c0, _ | ⟨c1, _ | ⟨c2, _ | ⟨c3, _ | ⟨c4, r⟩⟩⟩⟩⟩
  · rfl
  · rfl
  · rfl
  · rfl
  · rfl
  · simp at h
    omega

theorem stripSkipCmd_some_spec (x r : List Char) (h : stripSkipCmd x = some r) :
    ∃ c0 c1 c2 c3 c4, x = c0 :: c1 :: c2 :: c3 :: c4 :: r
      ∧ c0 = '/' ∧ (c1 = 's' ∨ c1 = 'S' ∨ c1 = '\u017F')
      ∧ (c2 = 'k' ∨ c2 = 'K' ∨ c2 = '\u212A')
      ∧ (c3 = 'i' ∨ c3 = 'I') ∧ (c4 = 'p' ∨ c4 = 'P') := by
  rcases x with _ | ⟨c0, _ | ⟨c1, _ | ⟨c2, _ | ⟨c3, _ | ⟨c4, t⟩⟩⟩⟩⟩
  · exact absurd h (by simp [stripSkipCmd])
  · exact absurd h (by simp [stripSkipCmd])
  · exact absurd h (by simp [stripSkipCmd])
  · exact absurd h (by simp [stripSkipCmd])
  · exact absurd h (by simp [stripSkipCmd])
  · simp only [stripSkipCmd] at h
    split at h
    · rename_i hcond
      obtain ⟨h0, h1, h2, h3, h4⟩ := hcond
      obtain rfl : t = r := by simpa using h
      exact ⟨c0, c1, c2, c3, c4, rfl, h0, h1, h2, h3, h4⟩
    · exact absurd h (by simp)

theorem tailMatchesSkip_eq_all (r : List Char) :
    tailMatchesSkip r = (firstLine r).all isGoSpace := by
  induction r with
  | nil => rfl
  | cons c t ih =>
    by_cases hn : c = '\n'
    · subst hn
      simp [tailMatchesSkip, firstLine, List.dropWhile_cons, List.takeWhile_cons]
    · by_cases hg : isGoSpace c = true
      · have hstep : tailMatchesSkip (c :: t) = tailMatchesSkip t := by
          simp [tailMatchesSkip, List.dropWhile_cons, hg, hn]
        rw [hstep, ih]
        simp [firstLine, List.takeWhile_cons, hn, hg]
      · simp [tailMatchesSkip, List.dropWhile_cons, hg, hn, firstLine,
          List.takeWhile_cons, Bool.eq_false_iff.mpr hg]

theorem matchesSkipHere_eq (l : List Char) :
    matchesSkipHere l = lineMatchesSkip (firstLine l) := by
  cases hs : stripSkipCmd l with
  | some rest =>
    obtain ⟨c0, c1, c2, c3, c4, hdec, h0, h1, h2, h3, h4⟩ := stripSkipCmd_some_spec l rest hs
    subst hdec
    have hn0 : ¬(c0 = '\n') := by subst h0; decide
    have hn1 : ¬(c1 = '\n') := by rcases h1 with h | h | h <;> subst h <;> decide
    have hn2 : ¬(c2 = '\n') := by rcases h2 with h | h | h <;> subst h <;> decide
    have hn3 : ¬(c3 = '\n') := by rcases h3 with h | h <;> subst h <;> decide
    have hn4 : ¬(c4 = '\n') := by rcases h4 with h | h <;> subst h <;> decide
    have hfl : firstLine (c0 :: c1 :: c2 :: c3 :: c4 :: rest)
        = c0 :: c1 :: c2 :: c3 :: c4 :: firstLine rest := by
      simp [firstLine, List.takeWhile_cons, hn0, hn1, hn2, hn3, hn4]
    have hcond : c0 = '/' ∧ (c1 = 's' ∨ c1 = 'S' ∨ c1 = '\u017F')
        ∧ (c2 = 'k' ∨ c2 = 'K' ∨ c2 = '\u212A')
        ∧ (c3 = 'i' ∨ c3 = 'I') ∧ (c4 = 'p' ∨ c4 = 'P') := ⟨h0, h1, h2, h3, h4⟩
    have hs2 : stripSkipCmd (c0 :: c1 :: c2 :: c3 :: c4 :: firstLine rest)
        = some (firstLine rest) := by
      simp only [stripSkipCmd, if_pos hcond]
    rw [matchesSkipHere, hs, hfl, lineMatchesSkip, hs2]
    exact tailMatchesSkip_eq_all rest
  | none =>
    cases hs2 : stripSkipCmd (firstLine l) with
    | none => rw [matchesSkipHere, hs, lineMatchesSkip, hs2]
    | some r2 =>
      exfalso
      obtain ⟨d0, d1, d2, d3, d4, hdec, hcond⟩ :=
        stripSkipCmd_some_spec (firstLine l) r2 hs2
      have hl : l = d0 :: d1 :: d2 :: d3 :: d4
          :: (r2 ++ l.dropWhile (fun c => c != '\n')) := by
        conv_lhs => rw [← List.takeWhile_append_dropWhile (fun c => c != '\n') l]
        rw [show l.takeWhile (fun c => c != '\n') = firstLine l from rfl, hdec]
        simp
      rw [hl] at hs
      rw [show stripSkipCmd (d0 :: d1 :: d2 :: d3 :: d4
          :: (r2 ++ l.dropWhile (fun c => c != '\n')))
        = some (r2 ++ l.dropWhile (fun c => c != '\n')) from by
          simp only [stripSkipCmd, if_pos hcond]] at hs
      exact absurd hs (by simp)

theorem splitLines_headI (l : List Char) : (splitLines l).headI = firstLine l := by
  induction l with
  | nil => rfl
  | cons c t ih =>
    by_cases hn : c = '\n'
    · subst hn
      simp [splitLines, firstLine, List.takeWhile_cons]
    · simp [splitLines, firstLine, List.takeWhile_cons, hn]
      exact ih

theorem splitLines_tail (l : List Char) (c : Char) :
    (splitLines (c :: l)).tail
      = if c = '\n' then splitLines l else (splitLines l).tail := by
  by_cases hn : c = '\n' <;> simp [splitLines, hn]

theorem scanSkip_eq_any (l : List Char) :
    scanSkip true l = (splitLines l).any lineMatchesSkip ∧
      scanSkip false l = ((splitLines l).tail).any lineMatchesSkip := by
  induction l with
  | nil => exact ⟨rfl, rfl⟩
  | cons c t ih =>
    obtain ⟨ih1, ih2⟩ := ih
    by_cases hn : c = '\n'
    · subst hn
      constructor
      · rw [show scanSkip true ('\n' :: t)
            = (matchesSkipHere ('\n' :: t) || scanSkip true t) from rfl]
        rw [matchesSkipHere_eq]
        rw [show firstLine ('\n' :: t) = [] from by
          simp [firstLine, List.takeWhile_cons]]
        rw [show splitLines ('\n' :: t) = [] :: splitLines t from by simp [splitLines]]
        simp [ih1]
      · rw [show scanSkip false ('\n' :: t) = scanSkip true t from rfl]
        rw [show splitLines ('\n' :: t) = [] :: splitLines t from by simp [splitLines]]
        simp [ih1]
    · have hbe : (c == '\n') = false := by simp [hn]
      have hsplit : splitLines (c :: t)
          = (c :: (splitLines t).headI) :: (splitLines t).tail := by
        simp [splitLines, hn]
      constructor
      · rw [show scanSkip true (c :: t)
            = (matchesSkipHere (c :: t) || scanSkip (c == '\n') t) from rfl, hbe]
        rw [matchesSkipHere_eq]
        rw [show firstLine (c :: t) = c :: firstLine t from by
          simp [firstLine, List.takeWhile_cons, hn]]
        rw [hsplit]
        simp [ih2, splitLines_headI]
      · rw [show scanSkip false (c :: t) = scanSkip (c == '\n') t from rfl, hbe]
        rw [hsplit]
        simp [ih2]

/-- Unicode simple case folding of the gate: the scanner accepts the command
with the long s (U+017F) for `s` and the Kelvin sign (U+212A) for `k`, as
Go's `(?i)` flag does, and still rejects a prefixed line. -/
theorem skipReMatch_unicode_folds :
    skipReMatch "/\u017Fkip" = true ∧ skipReMatch "/s\u212AIP" = true
      ∧ skipReMatch "/skip" = true ∧ skipReMatch "x/skip" = false := by
  decide

/-- C10: the command pattern is matched in multiline mode: the body matches
exactly when some single line of it consists of the `/skip` command with at
most trailing whitespace, so the command may appear among other lines; and a
line with any leading characters before the command never matches. -/
theorem skip_C10 :
    (∀ body : String, skipReMatch body = (splitLines body.data).any lineMatchesSkip) ∧
      (∀ p l : List Char, p ≠ [] → lineMatchesSkip l = true
        → lineMatchesSkip (p ++ l) = false) := by
  constructor
  · intro body
    exact (scanSkip_eq_any body.data).1
  · intro p l hp hl
    cases hsl : stripSkipCmd l with
    | none =>
      rw [lineMatchesSkip, hsl] at hl
      exact absurd hl (by simp)
    | some w =>
      obtain ⟨c0, c1, c2, c3, c4, hdec, h0, h1, h2, h3, h4⟩ :=
        stripSkipCmd_some_spec l w hsl
      cases hs : stripSkipCmd (p ++ l) with
      | none => rw [lineMatchesSkip, hs]
      | some r =>
        obtain ⟨d0, d1, d2, d3, d4, hdec2, hcond2⟩ :=
          stripSkipCmd_some_spec (p ++ l) r hs
        rw [lineMatchesSkip, hs]
        have hr : r = (p ++ l).drop 5 := by
          rw [hdec2]
          rfl
        have hdrop : (p ++ l).drop (p.length + 4) = c4 :: w := by
          rw [List.drop_append_eq_append_drop]
          rw [List.drop_eq_nil_of_le (by omega)]
          rw [show p.length + 4 - p.length = 4 from by omega, hdec]
          rfl
        have hmem0 : c4 ∈ (p ++ l).drop (p.length + 4) := by
          rw [hdrop]
          exact List.mem_cons_self _ _
        have hlen : 1 ≤ p.length := List.length_pos.mpr hp
        have hres : (p ++ l).drop (p.length + 4)
            = ((p ++ l).drop 5).drop (p.length - 1) := by
          rw [List.drop_drop]
          congr 1
          omega
        rw [hres] at hmem0
        have hmem : c4 ∈ r := by
          rw [hr]
          exact List.mem_of_mem_drop hmem0
        have hc4 : isGoSpace c4 = false := by
          rcases h4 with h | h <;> subst h <;> decide
        rw [Bool.eq_false_iff]
        intro hall
        rw [List.all_eq_true] at hall
        have hg := hall c4 hmem
        rw [hc4] at hg
        exact absurd hg (by simp)

theorem skip_C10_witness :
    (skipReMatch "comment first\n/\u017F\u212AIp  \ncomment last"
      = (splitLines ("comment first\n/\u017F\u212AIp  \ncomment last").data).any
          lineMatchesSkip)
    ∧ skipReMatch "comment first\n/\u017F\u212AIp  \ncomment last" = true
    ∧ lineMatchesSkip
        ('x' :: ('/' :: '\u017F' :: '\u212A' :: 'I' :: 'p' :: [])) = false :=
  ⟨skip_C10.1 "comment first\n/\u017F\u212AIp  \ncomment last", by decide,
    skip_C10.2 ['x'] ('/' :: '\u017F' :: '\u212A' :: 'I' :: 'p' :: [])
      (by decide) (by decide)⟩

/-- C8: the command gate admits an event only when its subject is a pull
request, the pull request is open, the action is comment creation, and the
body matches the `/skip` pattern; when any condition fails the handler
returns without error and issues no collaborator call at all (no fetch, no
comment, no status write). -/
theorem skip_C8 (env : HandleEnv) (e : GenericCommentEvent) (honor : Bool)
    (h : e.isPR = false ∨ e.issueState ≠ "open"
      ∨ e.action ≠ GenericCommentEventAction.created ∨ skipReMatch e.body = false) :
    handle env e honor = ([], Except.ok ()) := by
  rcases h with h | h | h | h
  · simp [handle, h]
  · simp [handle, h]
  · simp [handle, h]
  · by_cases hg : (!e.isPR : Prop) ∨ e.issueState ≠ "open"
        ∨ e.action ≠ GenericCommentEventAction.created
    · simp only [handle]
      rw [if_pos hg]
    · simp [handle, hg, h]

theorem skip_C8_witness : handle envNoop eventClosedPR true = ([], Except.ok ()) :=
  skip_C8 envNoop eventClosedPR true (Or.inr (Or.inl (by decide)))

/-- C7 counterexample: the pull-request fetch fails with "boom" on an
admitted event, the error comment posts successfully, and the invocation's
error result is `Except.ok ()` — the fetch failure itself is not propagated
to the caller as the invocation's error result. -/
theorem skip_C7_counterexample :
    envPrFetchFails.gc.getPullRequest = Except.error "boom"
      ∧ (handle envPrFetchFails eventOpenPR true).2 = Except.ok () := by
  constructor
  · rfl
  · rfl

/-- C7 (amended): on an upstream fetch failure (pull request, combined
status, or trigger-overlap resolution) on an admitted event, the handler
posts a user-visible comment reporting the error and aborts; the
invocation's error result is the outcome of posting that comment (no error
when the comment posts successfully), while the fetch failure itself is
only logged, not returned. -/
theorem skip_C7 (env : HandleEnv) (e : GenericCommentEvent) (honor : Bool) (err : String)
    (hpr : e.isPR = true) (hopen : e.issueState = "open")
    (hact : e.action = GenericCommentEventAction.created)
    (hre : skipReMatch e.body = true) :
    (env.gc.getPullRequest = Except.error err →
      handle env e honor =
        ([SideEffect.fetchPullRequest,
          SideEffect.createComment (FormatResponseRaw e.body e.htmlURL e.userLogin
            (prFetchErrorResp e.number e.repoOwnerLogin e.repoName err))],
         env.gc.createComment (FormatResponseRaw e.body e.htmlURL e.userLogin
           (prFetchErrorResp e.number e.repoOwnerLogin e.repoName err))))
    ∧ (∀ pr presubmits, env.gc.getPullRequest = Except.ok pr
        → env.getPresubmits = Except.ok presubmits
        → env.gc.getCombinedStatus = Except.error err →
        handle env e honor =
          ([SideEffect.fetchPullRequest, SideEffect.fetchPresubmits,
            SideEffect.fetchCombinedStatus,
            SideEffect.createComment (FormatResponseRaw e.body e.htmlURL e.userLogin
              (combinedStatusErrorResp e.number e.repoOwnerLogin e.repoName err))],
           env.gc.createComment (FormatResponseRaw e.body e.htmlURL e.userLogin
             (combinedStatusErrorResp e.number e.repoOwnerLogin e.repoName err))))
    ∧ (∀ pr presubmits cs, env.gc.getPullRequest = Except.ok pr
        → env.getPresubmits = Except.ok presubmits
        → env.gc.getCombinedStatus = Except.ok cs
        → cs.state ≠ StatusState.success
        → env.filterPresubmits = Except.error err →
        handle env e honor =
          ([SideEffect.fetchPullRequest, SideEffect.fetchPresubmits,
            SideEffect.fetchCombinedStatus, SideEffect.fetchFilteredPresubmits,
            SideEffect.createComment (FormatResponseRaw e.body e.htmlURL e.userLogin
              (filterErrorResp e.number e.repoOwnerLogin e.repoName err))],
           env.gc.createComment (FormatResponseRaw e.body e.htmlURL e.userLogin
             (filterErrorResp e.number e.repoOwnerLogin e.repoName err)))) := by
  have hgate : ¬((!e.isPR : Prop) ∨ e.issueState ≠ "open"
      ∨ e.action ≠ GenericCommentEventAction.created) := by
    simp [hpr, hopen, hact]
  refine ⟨fun h1 => ?_, fun pr presubmits h1 h2 h3 => ?_, fun pr presubmits cs h1 h2 h3 h4 h5 => ?_⟩
  · simp [handle, hgate, hre, h1]
    exact ⟨hpr, hopen, hact⟩
  · simp [handle, hgate, hre, h1, h2, h3]
    exact ⟨hpr, hopen, hact⟩
  · simp [handle, hgate, hre, h1, h2, h3, h4, h5]
    exact ⟨hpr, hopen, hact⟩

theorem skip_C7_witness :
    handle envPrFetchFails eventOpenPR true =
      ([SideEffect.fetchPullRequest,
        SideEffect.createComment (FormatResponseRaw eventOpenPR.body eventOpenPR.htmlURL
          eventOpenPR.userLogin (prFetchErrorResp eventOpenPR.number
            eventOpenPR.repoOwnerLogin eventOpenPR.repoName "boom"))],
       envPrFetchFails.gc.createComment (FormatResponseRaw eventOpenPR.body
         eventOpenPR.htmlURL eventOpenPR.userLogin (prFetchErrorResp eventOpenPR.number
           eventOpenPR.repoOwnerLogin eventOpenPR.repoName "boom"))) :=
  (skip_C7 envPrFetchFails eventOpenPR true "boom" rfl rfl rfl (by decide)).1 rfl

theorem skipLoop_spec (env : HandleEnv) (e : GenericCommentEvent) (statuses : List Status)
    (filtered : List Presubmit) (err : String) :
    ∀ (l pre post : List Presubmit) (job : Presubmit),
      l.filter (fun j => statusExists j statuses && !isSuccess j statuses
        && !triggerWillHandle filtered j && !j.ContextRequired) = pre ++ job :: post →
      (∀ p ∈ pre, env.gc.createStatus (skipStatusFor p) = Except.ok ()) →
      env.gc.createStatus (skipStatusFor job) = Except.error err →
      skipLoop env e statuses filtered l =
        (pre.map (fun p => SideEffect.createStatus (skipStatusFor p))
          ++ [SideEffect.createStatus (skipStatusFor job),
              SideEffect.createComment (FormatResponseRaw e.body e.htmlURL e.userLogin
                (statusWriteErrorResp job.context err))],
         env.gc.createComment (FormatResponseRaw e.body e.htmlURL e.userLogin
           (statusWriteErrorResp job.context err))) := by
  intro l
  induction l with
  | nil =>
    intro pre post job hfil
    exact absurd hfil.symm (List.append_ne_nil_of_right_ne_nil pre (by simp))
  | cons c t ih =>
    intro pre post job hfil hok hfail
    by_cases h1 : statusExists c statuses = true
    · by_cases h2 : isSuccess c statuses = true
      · rw [List.filter_cons_of_neg (by simp [h1, h2])] at hfil
        rw [show skipLoop env e statuses filtered (c :: t)
            = skipLoop env e statuses filtered t from by simp [skipLoop, h1, h2]]
        exact ih pre post job hfil hok hfail
      · by_cases h3 : triggerWillHandle filtered c = true
        · rw [List.filter_cons_of_neg (by simp [h1, h2, h3])] at hfil
          rw [show skipLoop env e statuses filtered (c :: t)
              = skipLoop env e statuses filtered t from by simp [skipLoop, h1, h2, h3]]
          exact ih pre post job hfil hok hfail
        · by_cases h4 : c.ContextRequired = true
          · rw [List.filter_cons_of_neg (by simp [h1, h2, h3, h4])] at hfil
            rw [show skipLoop env e statuses filtered (c :: t)
                = skipLoop env e statuses filtered t from by simp [skipLoop, h1, h2, h3, h4]]
            exact ih pre post job hfil hok hfail
          · rw [List.filter_cons_of_pos (by simp [h1, h2, h3, h4])] at hfil
            cases pre with
            | nil =>
              simp only [List.nil_append] at hfil
              injection hfil with hc hrest
              subst hc
              rw [show skipLoop env e statuses filtered (c :: t)
                  = (match env.gc.createStatus (skipStatusFor c) with
                    | Except.ok _ =>
                      (SideEffect.createStatus (skipStatusFor c)
                          :: (skipLoop env e statuses filtered t).1,
                        (skipLoop env e statuses filtered t).2)
                    | Except.error err2 =>
                      ([SideEffect.createStatus (skipStatusFor c),
                        SideEffect.createComment (FormatResponseRaw e.body e.htmlURL
                          e.userLogin (statusWriteErrorResp c.context err2))],
                        env.gc.createComment (FormatResponseRaw e.body e.htmlURL
                          e.userLogin (statusWriteErrorResp c.context err2)))) from by
                simp [skipLoop, h1, h2, h3, h4]]
              rw [hfail]
              simp
            | cons p pre2 =>
              simp only [List.cons_append] at hfil
              injection hfil with hc hrest
              subst hc
              have hpok : env.gc.createStatus (skipStatusFor c) = Except.ok () :=
                hok c (List.mem_cons_self _ _)
              rw [show skipLoop env e statuses filtered (c :: t)
                  = (SideEffect.createStatus (skipStatusFor c)
                        :: (skipLoop env e statuses filtered t).1,
                      (skipLoop env e statuses filtered t).2) from by
                simp [skipLoop, h1, h2, h3, h4, hpok]]
              rw [ih pre2 post job hrest
                (fun q hq => hok q (List.mem_cons_of_mem _ hq)) hfail]
              simp
    · rw [List.filter_cons_of_neg (by simp [h1])] at hfil
      rw [show skipLoop env e statuses filtered (c :: t)
          = skipLoop env e statuses filtered t from by simp [skipLoop, h1]]
      exact ih pre post job hfil hok hfail

/-- C6: applying the action sequence is fail-fast and non-rolling-back: with
an admitted event and successful fetches, when the status write for some
action fails, the handler has issued the writes for all earlier actions,
issues the failing write, posts a comment identifying the affected check's
context, and returns the comment-post outcome — no later action in the
sequence is attempted, and earlier writes are not rolled back. -/
theorem skip_C6 (env : HandleEnv) (e : GenericCommentEvent) (honor : Bool)
    (pr : PullRequest) (presubmits : List Presubmit) (cs : CombinedStatus)
    (filtered : List Presubmit) (err : String) (pre post : List Presubmit)
    (job : Presubmit)
    (hpr : e.isPR = true) (hopen : e.issueState = "open")
    (hact : e.action = GenericCommentEventAction.created)
    (hre : skipReMatch e.body = true)
    (h1 : env.gc.getPullRequest = Except.ok pr)
    (h2 : env.getPresubmits = Except.ok presubmits)
    (h3 : env.gc.getCombinedStatus = Except.ok cs)
    (h4 : cs.state ≠ StatusState.success)
    (h5 : env.filterPresubmits = Except.ok filtered)
    (hsplit : presubmits.filter (fun j => statusExists j cs.statuses
      && !isSuccess j cs.statuses && !triggerWillHandle filtered j
      && !j.ContextRequired) = pre ++ job :: post)
    (hok : ∀ p ∈ pre, env.gc.createStatus (skipStatusFor p) = Except.ok ())
    (hfail : env.gc.createStatus (skipStatusFor job) = Except.error err) :
    handle env e honor =
      (SideEffect.fetchPullRequest :: SideEffect.fetchPresubmits
          :: SideEffect.fetchCombinedStatus :: SideEffect.fetchFilteredPresubmits
          :: (pre.map (fun p => SideEffect.createStatus (skipStatusFor p))
            ++ [SideEffect.createStatus (skipStatusFor job),
                SideEffect.createComment (FormatResponseRaw e.body e.htmlURL e.userLogin
                  (statusWriteErrorResp job.context err))]),
       env.gc.createComment (FormatResponseRaw e.body e.htmlURL e.userLogin
         (statusWriteErrorResp job.context err))) := by
  have hgate : ¬((!e.isPR : Prop) ∨ e.issueState ≠ "open"
      ∨ e.action ≠ GenericCommentEventAction.created) := by
    simp [hpr, hopen, hact]
  have hloop := skipLoop_spec env e cs.statuses filtered err presubmits pre post job
    hsplit hok hfail
  simp [handle, hgate, hre, h1, h2, h3, h4, h5, hloop]
  exact ⟨hpr, hopen, hact⟩

theorem skip_C6_witness :
    handle envC6 eventOpenPR true =
      (SideEffect.fetchPullRequest :: SideEffect.fetchPresubmits
          :: SideEffect.fetchCombinedStatus :: SideEffect.fetchFilteredPresubmits
          :: ([jobA].map (fun p => SideEffect.createStatus (skipStatusFor p))
            ++ [SideEffect.createStatus (skipStatusFor jobB),
                SideEffect.createComment (FormatResponseRaw eventOpenPR.body
                  eventOpenPR.htmlURL eventOpenPR.userLogin
                  (statusWriteErrorResp jobB.context "boom"))]),
       envC6.gc.createComment (FormatResponseRaw eventOpenPR.body eventOpenPR.htmlURL
         eventOpenPR.userLogin (statusWriteErrorResp jobB.context "boom"))) :=
  skip_C6 envC6 eventOpenPR true { baseRef := "master", headSHA := "abc123" }
    [jobA, jobB, jobC] csC6 [] "boom" [jobA] [jobC] jobB
    rfl rfl rfl (by decide) rfl rfl rfl (by decide) rfl (by decide)
    (by intro p hp; simp at hp; subst hp; rfl) rfl
